import Mathlib

/-!
Verification development for the adaptive learning platform
(React frontend plus a curriculum-retrieval lesson-generation backend).

JavaScript strings are modelled as lists of characters, JS objects used as
maps are modelled as association lists, and the one source of randomness
(Math.random in the Assessment component) is modelled as an explicit
natural-number parameter.
-/

/-- JS strings are modelled as lists of characters. -/

abbrev Str := List Char

/-- Model of JS String.prototype.toLowerCase (ASCII range). -/

def toLowerStr (s : Str) : Str := s.map Char.toLower

/-- Model of String.prototype.trim restricted to space characters. -/

def trimStr (s : Str) : Str :=
  ((s.dropWhile (· = ' ')).reverse.dropWhile (· = ' ')).reverse

/-- Boolean test that a string begins with the given pattern. -/

def startsWithS : Str → Str → Bool
  | _, [] => true
  | [], _ :: _ => false
  | c :: t, d :: u => c == d && startsWithS t u

/-- Model of JS String.prototype.includes: the needle occurs contiguously
inside the haystack. -/

def containsSub (hay needle : Str) : Bool :=
  match hay with
  | [] => startsWithS [] needle
  | c :: t => startsWithS (c :: t) needle || containsSub t needle

/-- The relational meaning of substring containment. -/

def IsSubstring (needle hay : Str) : Prop :=
  ∃ pre post, hay = pre ++ needle ++ post

def splitLines : Str → List Str
  | [] => [[]]
  | c :: t =>
    if c = '\n' then [] :: splitLines t
    else
      match splitLines t with
      | [] => [[c]]
      | l :: ls => (c :: l) :: ls

/-- Title-casing: the first character and every character following a space
is uppercased, every other character is lowercased. -/

def titleCaseGo : Bool → Str → Str
  | _, [] => []
  | atStart, c :: t =>
    (if atStart then c.toUpper else c.toLower) :: titleCaseGo (c == ' ') t

/-- Model of title-casing a topic string. -/

def titleCase (s : Str) : Str := titleCaseGo true s

/-- De-duplication by key with an accumulator of keys already seen,
keeping the first occurrence of each key, in order. -/

def dedupKeySeen {α β : Type} [DecidableEq β] (key : α → β) (seen : List β) :
    List α → List α
  | [] => []
  | a :: l =>
    if key a ∈ seen then dedupKeySeen key seen l
    else a :: dedupKeySeen key (key a :: seen) l

/-- De-duplication by a key function, keeping the first occurrence of each
key, in order. -/

def dedupByKey {α β : Type} [DecidableEq β] (key : α → β) (l : List α) :
    List α :=
  dedupKeySeen key [] l

/-- De-duplication keeping the first occurrence of each element, in
order. -/

def dedupFirstSeen {α : Type} [DecidableEq α] (l : List α) : List α :=
  dedupKeySeen id [] l

def expansionTable : List (Str × List Str) :=
  [ ("matter".data,
     ["chemistry".data, "chemical".data, "atomic".data, "molecule".data,
      "reaction".data, "element".data]),
    ("energy".data,
     ["physics".data, "force".data, "motion".data, "power".data,
      "work".data]),
    ("biology".data,
     ["cell".data, "organism".data, "life".data, "living".data,
      "ecosystem".data]),
    ("earth".data,
     ["geology".data, "planet".data, "rock".data, "mineral".data]) ]

/-- Normalisation applied to a raw topic before table lookup: lowercase,
then trim. -/

def normalizeTopic (s : Str) : Str := trimStr (toLowerStr s)

/-- Modelled from the spec: the Keyword Expander of the backend
`content_generator.py`, which is absent from the sources. Every table key
that occurs as a substring of the normalised topic contributes its
expansion terms; when no key matches the result is empty. -/

def expand (topic : Str) : List Str :=
  (expansionTable.filter
      (fun e => containsSub (normalizeTopic topic) e.1)).flatMap (fun e => e.2)

/-- The subject enumeration of the platform. -/

inductive Subject
  | mathematics
  | english
  | science
  deriving DecidableEq, Repr

/-- A stored curriculum chunk. The embedding vector is not carried:
similarity scoring is abstracted as a function parameter. -/

structure CurriculumChunk where
  id : Nat
  subject : Subject
  grade : Nat
  title : Str
  body : Str
  deriving DecidableEq, Repr

/-- Modelled from the spec: similarity_search of the Curriculum Store
collaborator, whose backend wrapper is absent from the sources. The store
is a list of chunks; results are filtered to the exact requested subject
and grade, ranked by descending similarity score and truncated to the
limit. The scoring function stands in for vector similarity. -/

def similarity_search (score : Str → CurriculumChunk → Nat)
    (store : List CurriculumChunk) (query : Str) (subject : Subject)
    (grade : Nat) (limit : Nat) : List CurriculumChunk :=
  (((store.filter
      (fun c => decide (c.subject = subject ∧ c.grade = grade))).insertionSort
      (fun a b => score query b ≤ score query a)).take limit)

/-- Joining a list of strings with single spaces. -/

def joinSpaces (l : List Str) : Str := List.intercalate [' '] l

/-- Modelled from the spec: the augmented query of the second retrieval
pass, the raw topic together with the expansion terms of the Keyword
Expander. -/

def augmentedQuery (topic : Str) : Str := joinSpaces (topic :: expand topic)

/-- The minimum first-pass result count below which keyword expansion is
applied. -/

def expansionThreshold : Nat := 3

/-- The default retrieval limit (raised from 5 to 8 in the source
history). -/

def defaultRetrieveLimit : Nat := 8

/-- Modelled from the spec: `retrieve` of the backend Retriever, which is
absent from the sources. Pass one searches on the raw topic; only when it
yields fewer than three chunks is a second search on the augmented query
run; the merge is de-duplicated by chunk identity keeping the first,
higher-ranked occurrence, and the result is truncated to the limit. -/

def retrieve (score : Str → CurriculumChunk → Nat)
    (store : List CurriculumChunk) (subject : Subject) (grade : Nat)
    (topic : Str) (limit : Nat := defaultRetrieveLimit) :
    List CurriculumChunk :=
  let pass1 := similarity_search score store topic subject grade limit
  let merged :=
    if pass1.length < expansionThreshold then
      dedupByKey (fun c => c.id)
        (pass1 ++
          similarity_search score store (augmentedQuery topic) subject grade
            limit)
    else pass1
  merged.take limit

def objectivesMarker : Str := "students will learn to:".data

/-- The lines following the first line containing the marker
(case-insensitively); none when the marker is absent. -/

def linesAfterMarker (marker : Str) : List Str → Option (List Str)
  | [] => none
  | l :: t =>
    if containsSub (toLowerStr l) marker then some t
    else linesAfterMarker marker t

/-- A bullet line: after trimming it starts with a dash or bullet marker. -/

def isBulletLine (l : Str) : Bool :=
  startsWithS (trimStr l) "- ".data || startsWithS (trimStr l) "• ".data

/-- The text of a bullet line: the trimmed line with its two-character
bullet marker removed, trimmed again. -/

def bulletText (l : Str) : Str := trimStr ((trimStr l).drop 2)

/-- Modelled from the spec: extract_objectives of the backend Content
Extractor in `content_generator.py`, which is absent from the sources.
It locates the marker phrase "Students will learn to:" case-insensitively
and collects the bullet-prefixed lines that follow it, stopping at the
first non-bullet line; the result is empty when the marker is absent. -/

def extract_objectives (body : Str) : List Str :=
  match linesAfterMarker objectivesMarker (splitLines body) with
  | none => []
  | some rest => (rest.takeWhile isBulletLine).map bulletText

/-- Modelled from the spec: extract_key_concepts collects every bullet line
of the body not already claimed by objective extraction. -/

def extract_key_concepts (body : Str) : List Str :=
  (((splitLines body).filter isBulletLine).map bulletText).filter
    (fun l => decide (l ∉ extract_objectives body))

/-- Modelled from the spec: extract_applications collects the bullet lines
following an applications header. -/

def extract_applications (body : Str) : List Str :=
  match linesAfterMarker "applications:".data (splitLines body) with
  | none => []
  | some rest => (rest.takeWhile isBulletLine).map bulletText

/-- An extracted example before the assembler adds its display title. -/

structure RawExample where
  problem : Str
  solution : Str
  explanation : Str
  deriving DecidableEq, Repr

/-- A structured example of a lesson payload. -/

structure LessonExample where
  title : Str
  problem : Str
  solution : Str
  explanation : Str
  deriving DecidableEq, Repr

/-- Grouping lines into paragraph blocks; blank lines open a new block. -/

def blocksOfAux : List Str → List (List Str)
  | [] => [[]]
  | l :: t =>
    let r := blocksOfAux t
    if (trimStr l).isEmpty then [] :: r
    else
      match r with
      | [] => [[l]]
      | b :: bs => (l :: b) :: bs

/-- The non-empty paragraph blocks of a list of lines. -/

def blocksOf (lines : List Str) : List (List Str) :=
  (blocksOfAux lines).filter (fun b => !b.isEmpty)

/-- The markers that introduce an example block. -/

def exampleMarkers : List Str :=
  ["example:".data, "e.g.,".data, "for instance".data]

/-- Whether a paragraph block is introduced by an example marker. -/

def isExampleBlock (block : List Str) : Bool :=
  match block with
  | [] => false
  | l :: _ => exampleMarkers.any (fun m => containsSub (toLowerStr l) m)

/-- Splitting a string at the first case-insensitive occurrence of a
marker; the marker itself is dropped from the remainder. -/

def splitAtMarker (marker : Str) : Str → Str × Str
  | [] => ([], [])
  | c :: t =>
    if startsWithS (toLowerStr (c :: t)) marker then
      ([], (c :: t).drop marker.length)
    else
      let r := splitAtMarker marker t
      (c :: r.1, r.2)

/-- The text of a paragraph block, its lines rejoined. -/

def blockText (block : List Str) : Str := List.intercalate ['\n'] block

/-- Modelled from the spec: extract_examples of the backend Content
Extractor, absent from the sources. Paragraph blocks introduced by an
example marker are split at a solution marker into problem and solution;
with no solution marker the whole block is problem text and the solution
is left empty. -/

def extract_examples (body : Str) : List RawExample :=
  ((blocksOf (splitLines body)).filter isExampleBlock).map fun block =>
    let t := blockText block
    let pr := splitAtMarker "solution:".data t
    { problem := trimStr pr.1
      solution := trimStr pr.2
      explanation :=
        "This example is from the Sierra Leone curriculum".data }

/-- The lesson payload returned to the presentation layer. -/

structure LessonPayload where
  title : Str
  objectives : List Str
  content : Str
  examples : List LessonExample
  key_points : List Str
  estimated_time : Nat
  deriving DecidableEq, Repr

/-- Modelled from the spec: the fixed per-subject estimated-time heuristic
(25 to 45 minutes), not derived from content length. -/

def estimatedTimeFor : Subject → Nat
  | .mathematics => 45
  | .english => 30
  | .science => 40

/-- The lowercase display name of a subject. -/

def subjectName : Subject → Str
  | .mathematics => "mathematics".data
  | .english => "english".data
  | .science => "science".data

/-- The literal separator placed between rendered chunks. -/

def chunkSeparator : Str := "\n\n---\n\n".data

/-- Maximum number of chunks concatenated into lesson content. -/

def maxContentChunks : Nat := 6

/-- Maximum number of examples and key points kept for display. -/

def displayCap : Nat := 5

/-- The heading that opens curriculum-backed lesson content. -/

def contentHeader (topic : Str) : Str :=
  "# ".data ++ titleCase topic ++
    "\n\n## From Sierra Leone Curriculum\n\n".data

/-- A chunk rendered for the content: its title header, then its body. -/

def renderChunk (c : CurriculumChunk) : Str :=
  c.title ++ '\n' :: c.body

/-- Modelled from the spec: the three synthesized generic objectives
referencing the topic and subject, the guaranteed non-empty fallback. -/

def genericObjectives (topic : Str) (subject : Subject) : List Str :=
  [ "Understand ".data ++ topic ++ " definitions and concepts".data,
    "Learn ".data ++ topic ++ " through practical ".data ++
      subjectName subject ++ " examples from Sierra Leone".data,
    "Apply ".data ++ topic ++ " to solve real-world ".data ++
      subjectName subject ++ " problems".data ]

/-- Modelled from the spec: the degraded generic content produced when no
chunk is available, naming the topic and the subject but asserting no
curriculum-sourced claims. -/

def fallbackContent (topic : Str) (subject : Subject) : Str :=
  "# ".data ++ titleCase topic ++
    "\n\nThis lesson introduces ".data ++ topic ++
    " for ".data ++ subjectName subject ++
    " students in Sierra Leone.".data

/-- Attaching the display title to an extracted example. -/

def exampleWithTitle (topic : Str) (e : RawExample) : LessonExample :=
  { title := titleCase topic ++ " Example from Curriculum".data
    problem := e.problem
    solution := e.solution
    explanation := e.explanation }

/-- Modelled from the spec: `assemble` of the Lesson Assembler of the
backend `content_generator.py`, which is absent from the sources. -/

def assemble (subject : Subject) (topic : Str) (grade : Nat)
    (chunks : List CurriculumChunk) : LessonPayload :=
  let used := chunks.take maxContentChunks
  let objsRaw :=
    dedupFirstSeen (chunks.flatMap (fun c => extract_objectives c.body))
  { title := titleCase topic ++ " - Sierra Leone Curriculum".data
    objectives :=
      if objsRaw.isEmpty then genericObjectives topic subject else objsRaw
    content :=
      if used.isEmpty then fallbackContent topic subject
      else
        contentHeader topic ++
          List.intercalate chunkSeparator (used.map renderChunk)
    examples :=
      ((chunks.flatMap (fun c => extract_examples c.body)).map
          (exampleWithTitle topic)).take displayCap
    key_points :=
      (dedupFirstSeen
        (chunks.flatMap (fun c => extract_key_concepts c.body))).take
        displayCap
    estimated_time := estimatedTimeFor subject }

/-- Modelled from the spec: the end-to-end lesson generation pipeline. The
store argument is `none` when the Curriculum Store is unreachable (the
RetrievalUnavailable condition); the pipeline then assembles the degraded
generic payload instead of surfacing a failure. -/

def generateLesson (score : Str → CurriculumChunk → Nat) (subject : Subject)
    (grade : Nat) (topic : Str)
    (storeOrDown : Option (List CurriculumChunk)) : LessonPayload :=
  match storeOrDown with
  | none => assemble subject topic grade []
  | some store =>
    assemble subject topic grade (retrieve score store subject grade topic)

/-- A question of the Assessment component. -/

structure Question where
  id : Nat
  qtype : Str
  question : Str
  options : List Str
  correct : Str
  points : Nat
  deriving DecidableEq, Repr

/-- The three mock questions of the Assessment component. -/

def questions : List Question :=
  [ { id := 1, qtype := "mcq".data,
      question := "What is 15 + 27?".data,
      options := ["40".data, "42".data, "44".data, "46".data],
      correct := "42".data, points := 1 },
    { id := 2, qtype := "short_answer".data,
      question := "Solve for x: 2x + 5 = 13".data,
      options := [], correct := "4".data, points := 2 },
    { id := 3, qtype := "problem_solving".data,
      question := ("A student in Freetown has 500 Leone. If a notebook " ++
        "costs 75 Leone, how many notebooks can they buy?").data,
      options := [], correct := "6".data, points := 3 } ]

/-- The answers map of the Assessment component: question id to answer
text, in insertion order, as a JS object keyed by ids behaves. -/

abbrev AnswersMap := List (Nat × Str)

/-- The result record produced by handleSubmit. -/

structure AssessmentResults where
  score : Nat
  totalQuestions : Nat
  correctAnswers : Nat
  timeTaken : Nat
  deriving DecidableEq, Repr

/-- Model of handleSubmit of the Assessment component. Math.random is
modelled by the `rand` parameter: `Math.floor(Math.random() * 40) + 60`
becomes `rand % 40 + 60`. For scores 60 to 99 and three questions,
`Math.floor((score / 100) * questions.length)` agrees exactly with natural
division `score * questions.length / 100`: the true value is never within
floating-point error of an integer. The answers map is in the component
state but is never read here. -/

def handleSubmitResults (rand : Nat) (answers : AnswersMap)
    (timeRemaining : Nat) : AssessmentResults :=
  let score := rand % 40 + 60
  { score := score
    totalQuestions := questions.length
    correctAnswers := score * questions.length / 100
    timeTaken := 600 - timeRemaining }

/-- Whether the answers map has an entry for a question id. -/

def hasKey (m : AnswersMap) (k : Nat) : Bool := m.any (fun p => p.1 == k)

/-- Model of handleAnswerChange: set or update the entry for a question id
exactly as the JS object spread `{...prev, [questionId]: answer}` does:
an existing key keeps its position, a new key is appended. -/

def setAnswer (m : AnswersMap) (k : Nat) (v : Str) : AnswersMap :=
  if hasKey m k then m.map (fun p => if p.1 == k then (k, v) else p)
  else m ++ [(k, v)]

/-- The UI state of the Assessment component. -/

structure AState where
  currentQuestion : Nat
  answers : AnswersMap
  loading : Bool
  isSubmitted : Bool
  timeRemaining : Nat
  deriving DecidableEq, Repr

/-- The initial state of the Assessment component. -/

def initAState : AState :=
  { currentQuestion := 0, answers := [], loading := false,
    isSubmitted := false, timeRemaining := 600 }

/-- The guard of the Submit Assessment button: it is rendered only on the
last question of the pre-submission screen and disabled while loading or
while fewer answers than questions are recorded. -/

def submitEnabled (s : AState) : Bool :=
  !s.isSubmitted && s.currentQuestion == questions.length - 1 &&
    !s.loading && decide (questions.length ≤ s.answers.length)

/-- The user and timer events of the Assessment component. An answer
change always concerns the question currently rendered. -/

inductive AEvent
  | answerChange (ans : Str)
  | next
  | previous
  | submitStart
  | submitFinish (rand : Nat)
  | tick
  | retake

/-- One step of the Assessment component; `none` when the event's control
is disabled or not rendered in the given state. -/

def stepA (s : AState) : AEvent → Option AState
  | .answerChange ans =>
    match questions[s.currentQuestion]? with
    | none => none
    | some q =>
      if s.isSubmitted then none
      else some { s with answers := setAnswer s.answers q.id ans }
  | .next =>
    if !s.isSubmitted && s.currentQuestion + 1 < questions.length then
      some { s with currentQuestion := s.currentQuestion + 1 }
    else none
  | .previous =>
    if !s.isSubmitted && 0 < s.currentQuestion then
      some { s with currentQuestion := s.currentQuestion - 1 }
    else none
  | .submitStart =>
    if submitEnabled s then some { s with loading := true } else none
  | .submitFinish _ =>
    if s.loading then some { s with loading := false, isSubmitted := true }
    else none
  | .tick =>
    if !s.isSubmitted && 0 < s.timeRemaining then
      some { s with timeRemaining := s.timeRemaining - 1 }
    else none
  | .retake =>
    if s.isSubmitted then some initAState else none

/-- States reachable from the initial Assessment state. -/

inductive ReachableA : AState → Prop
  | init : ReachableA initAState
  | step {s s1 : AState} (e : AEvent) :
      ReachableA s → stepA s e = some s1 → ReachableA s1

/-- The key list of an answers map. -/

def keysOf (m : AnswersMap) : List Nat := m.map Prod.fst

/-- The ids of the assessment questions. -/

def questionIds : List Nat := questions.map Question.id

/-- The answers-map invariant of the Assessment component: keys are
distinct and all are ids of real questions. -/

def AnswersInv (m : AnswersMap) : Prop :=
  (keysOf m).Nodup ∧ ∀ k ∈ keysOf m, k ∈ questionIds

/-- A curriculum topic entry as served to the CurriculumTopics
component. -/

structure TopicEntry where
  topic : Str
  subtopics : List Str
  description : Str
  deriving DecidableEq, Repr

/-- The filter predicate of filteredTopics in CurriculumTopics.jsx: the
search query is a case-insensitive substring of the topic name or of one
of its subtopics. -/

def topicMatches (searchQuery : Str) (t : TopicEntry) : Bool :=
  containsSub (toLowerStr t.topic) (toLowerStr searchQuery) ||
    t.subtopics.any
      (fun st => containsSub (toLowerStr st) (toLowerStr searchQuery))

/-- Model of filteredTopics of CurriculumTopics.jsx. -/

def filteredTopics (topics : List TopicEntry) (searchQuery : Str) :
    List TopicEntry :=
  topics.filter (topicMatches searchQuery)

def demoBody : Str :=
  ("Students will learn to:\n- Understand atomic structure\n" ++
    "- Use the periodic table effectively\n\nPractical applications:\n" ++
    "- Understanding fertilizers").data

/-- A concrete stored chunk used by witnesses. -/

def demoChunk : CurriculumChunk :=
  { id := 1, subject := .science, grade := 10,
    title := "Chapter 2: Chemistry - Matter and Reactions".data,
    body := demoBody }

/-- A concrete Assessment state with every question answered, used by the
reachability witness. -/

def witState : AState :=
  { currentQuestion := 2,
    answers := [(1, "42".data), (2, "4".data), (3, "6".data)],
    loading := false, isSubmitted := false, timeRemaining := 600 }

/-- C3: the submitted assessment score is independent of the answers: for
any two answer maps and the same random draw, handleSubmit produces the
same results; the score lies between 60 and 99 and is drawn without
reading the answers, and the reported correctAnswers count is derived from
that score, not from comparing answers with the stored correct values. -/

theorem startsWithS_iff (h n : Str) :
    startsWithS h n = true ↔ ∃ t, h = n ++ t := by
  induction n generalizing h with
  | nil =>
    simp only [List.nil_append]
    constructor
    · intro _; exact ⟨h, rfl⟩
    · intro _; cases h <;> rfl
  | cons d u ih =>
    cases h with
    | nil =>
      simp only [startsWithS, List.cons_append]
      constructor
      · intro hfalse; cases hfalse
      · rintro ⟨t, ht⟩; cases ht
    | cons c t =>
      simp only [startsWithS, Bool.and_eq_true, beq_iff_eq, ih, List.cons_append]
      constructor
      · rintro ⟨rfl, s, rfl⟩; exact ⟨s, rfl⟩
      · rintro ⟨s, hs⟩
        injection hs with h1 h2
        exact ⟨h1, s, h2⟩

theorem containsSub_iff (hay needle : Str) :
    containsSub hay needle = true ↔ IsSubstring needle hay := by
  induction hay with
  | nil =>
    simp only [containsSub, IsSubstring, startsWithS_iff]
    constructor
    · rintro ⟨t, ht⟩
      exact ⟨[], t, ht⟩
    · rintro ⟨pre, post, hp⟩
      have h0 := List.append_eq_nil.mp hp.symm
      have h1 := List.append_eq_nil.mp h0.1
      exact ⟨[], by simp [h1.2]⟩
  | cons c t ih =>
    simp only [containsSub, Bool.or_eq_true, startsWithS_iff, ih, IsSubstring]
    constructor
    · rintro (⟨s, hs⟩ | ⟨pre, post, hp⟩)
      · exact ⟨[], s, by simp [hs]⟩
      · exact ⟨c :: pre, post, by simp [hp]⟩
    · rintro ⟨pre, post, hp⟩
      cases pre with
      | nil =>
        exact Or.inl ⟨post, by simpa using hp⟩
      | cons p ps =>
        injection hp with h1 h2
        exact Or.inr ⟨ps, post, h2⟩

/-- Splitting a string into its lines at newline characters. -/

theorem dedupKeySeen_sublist {α β : Type} [DecidableEq β] (key : α → β)
    (seen : List β) (l : List α) : (dedupKeySeen key seen l).Sublist l := by
  induction l generalizing seen with
  | nil => simp [dedupKeySeen]
  | cons a t ih =>
    rw [dedupKeySeen]
    split
    · exact (ih seen).cons a
    · exact (ih (key a :: seen)).cons₂ a

theorem dedupByKey_sublist {α β : Type} [DecidableEq β] (key : α → β)
    (l : List α) : (dedupByKey key l).Sublist l :=
  dedupKeySeen_sublist key [] l

theorem dedupFirstSeen_sublist {α : Type} [DecidableEq α] (l : List α) :
    (dedupFirstSeen l).Sublist l :=
  dedupKeySeen_sublist id [] l

theorem mem_dedupKeySeen_id {α : Type} [DecidableEq α] (seen : List α)
    (l : List α) (x : α) :
    x ∈ dedupKeySeen id seen l ↔ x ∈ l ∧ x ∉ seen := by
  induction l generalizing seen with
  | nil => simp [dedupKeySeen]
  | cons a t ih =>
    rw [dedupKeySeen]
    split
    · rename_i hmem
      rw [ih]
      simp only [id] at hmem
      simp only [List.mem_cons]
      constructor
      · rintro ⟨hm, hns⟩
        exact ⟨Or.inr hm, hns⟩
      · rintro ⟨rfl | hm, hns⟩
        · exact absurd hmem hns
        · exact ⟨hm, hns⟩
    · rename_i hmem
      simp only [id] at hmem
      simp only [List.mem_cons, ih, List.mem_cons]
      by_cases hxa : x = a
      · subst hxa; tauto
      · tauto

theorem mem_dedupFirstSeen {α : Type} [DecidableEq α] (l : List α) (x : α) :
    x ∈ dedupFirstSeen l ↔ x ∈ l := by
  rw [dedupFirstSeen, mem_dedupKeySeen_id]
  simp

theorem dedupKeySeen_map_key_spec {α β : Type} [DecidableEq β]
    (key : α → β) (seen : List β) (l : List α) :
    ((dedupKeySeen key seen l).map key).Nodup ∧
      ∀ b ∈ (dedupKeySeen key seen l).map key, b ∉ seen := by
  induction l generalizing seen with
  | nil => simp [dedupKeySeen]
  | cons a t ih =>
    rw [dedupKeySeen]
    split
    · rename_i hmem
      exact ih seen
    · rename_i hmem
      rcases ih (key a :: seen) with ⟨hnd, hfresh⟩
      rw [List.map_cons]
      constructor
      · refine List.Nodup.cons (fun hc => ?_) hnd
        exact hfresh (key a) hc (List.mem_cons_self _ _)
      · intro b hb
        rcases List.mem_cons.mp hb with rfl | hb2
        · exact hmem
        · intro hbs
          exact hfresh b hb2 (List.mem_cons_of_mem _ hbs)

theorem dedupByKey_map_key_nodup {α β : Type} [DecidableEq β]
    (key : α → β) (l : List α) : ((dedupByKey key l).map key).Nodup :=
  (dedupKeySeen_map_key_spec key [] l).1

theorem dedupFirstSeen_nodup {α : Type} [DecidableEq α] (l : List α) :
    (dedupFirstSeen l).Nodup := by
  have h := (dedupKeySeen_map_key_spec id [] l).1
  simpa using h

theorem dedupFirstSeen_eq_nil_iff {α : Type} [DecidableEq α] (l : List α) :
    dedupFirstSeen l = [] ↔ l = [] := by
  cases l with
  | nil => simp [dedupFirstSeen, dedupKeySeen]
  | cons a t => simp [dedupFirstSeen, dedupKeySeen]

/-- Modelled from the spec: the fixed keyword-expansion table of the backend
`content_generator.py`, which is absent from the sources; the entries are
the ones listed in the repository documentation. A colloquial topic keyword
maps to a fixed set of related domain terms. -/

theorem mem_similarity_search (score : Str → CurriculumChunk → Nat)
    (store : List CurriculumChunk) (query : Str) (subject : Subject)
    (grade : Nat) (limit : Nat) (c : CurriculumChunk)
    (h : c ∈ similarity_search score store query subject grade limit) :
    c.subject = subject ∧ c.grade = grade ∧ c ∈ store := by
  have h1 := List.mem_of_mem_take h
  have h2 := (List.mem_insertionSort _).mp h1
  have h3 := List.mem_filter.mp h2
  have h4 := of_decide_eq_true h3.2
  exact ⟨h4.1, h4.2, h3.1⟩

/-- The marker phrase that introduces objectives in curriculum text,
lowercased. -/

theorem hasKey_iff (m : AnswersMap) (k : Nat) :
    hasKey m k = true ↔ k ∈ keysOf m := by
  induction m with
  | nil => simp [hasKey, keysOf]
  | cons p t ih =>
    simp only [hasKey, keysOf, List.any_cons, Bool.or_eq_true, beq_iff_eq,
      List.map_cons, List.mem_cons] at ih ⊢
    constructor
    · rintro (h | h)
      · exact Or.inl h.symm
      · exact Or.inr (ih.mp h)
    · rintro (h | h)
      · exact Or.inl h.symm
      · exact Or.inr (ih.mpr h)

theorem keysOf_map_update (m : AnswersMap) (k : Nat) (v : Str) :
    keysOf (m.map (fun p => if p.1 == k then (k, v) else p)) = keysOf m := by
  induction m with
  | nil => rfl
  | cons p t ih =>
    simp only [List.map_cons, keysOf] at ih ⊢
    rw [ih]
    by_cases hp : p.1 = k
    · simp [hp]
    · simp [beq_eq_false_iff_ne.mpr hp]

theorem keysOf_setAnswer_mem (m : AnswersMap) (k : Nat) (v : Str)
    (h : hasKey m k = true) : keysOf (setAnswer m k v) = keysOf m := by
  rw [setAnswer, if_pos h]
  exact keysOf_map_update m k v

theorem keysOf_setAnswer_new (m : AnswersMap) (k : Nat) (v : Str)
    (h : hasKey m k = false) :
    keysOf (setAnswer m k v) = keysOf m ++ [k] := by
  rw [setAnswer, if_neg (by simp [h])]
  simp [keysOf]

theorem answersInv_setAnswer (m : AnswersMap) (k : Nat) (v : Str)
    (hinv : AnswersInv m) (hk : k ∈ questionIds) :
    AnswersInv (setAnswer m k v) := by
  rcases hinv with ⟨hnd, hsub⟩
  by_cases h : hasKey m k = true
  · rw [AnswersInv, keysOf_setAnswer_mem m k v h]
    exact ⟨hnd, hsub⟩
  · have hfalse : hasKey m k = false := by
      cases hh : hasKey m k
      · rfl
      · exact absurd hh h
    rw [AnswersInv, keysOf_setAnswer_new m k v hfalse]
    have hnotmem : k ∉ keysOf m := fun hm => h ((hasKey_iff m k).mpr hm)
    constructor
    · refine List.Nodup.append hnd (List.nodup_singleton k) ?_
      intro a ha hb
      rcases List.mem_singleton.mp hb with rfl
      exact hnotmem ha
    · intro a ha
      rcases List.mem_append.mp ha with h1 | h1
      · exact hsub a h1
      · rcases List.mem_singleton.mp h1 with rfl
        exact hk

theorem reachableA_answersInv (s : AState) (h : ReachableA s) :
    AnswersInv s.answers := by
  induction h with
  | init =>
    constructor
    · simp [initAState, keysOf]
    · intro k hk; simp [initAState, keysOf] at hk
  | step e hr hs ih =>
    rename_i s s1
    cases e with
    | answerChange ans =>
      simp only [stepA] at hs
      split at hs
      · cases hs
      · rename_i q hq
        split at hs
        · cases hs
        · injection hs with hs
          subst hs
          refine answersInv_setAnswer _ _ _ ih ?_
          have hqm : q ∈ questions := List.getElem?_mem hq
          exact List.mem_map.mpr ⟨q, hqm, rfl⟩
    | next =>
      simp only [stepA] at hs
      split at hs
      · injection hs with hs; subst hs; exact ih
      · cases hs
    | previous =>
      simp only [stepA] at hs
      split at hs
      · injection hs with hs; subst hs; exact ih
      · cases hs
    | submitStart =>
      simp only [stepA] at hs
      split at hs
      · injection hs with hs; subst hs; exact ih
      · cases hs
    | submitFinish rand =>
      simp only [stepA] at hs
      split at hs
      · injection hs with hs; subst hs; exact ih
      · cases hs
    | tick =>
      simp only [stepA] at hs
      split at hs
      · injection hs with hs; subst hs; exact ih
      · cases hs
    | retake =>
      simp only [stepA] at hs
      split at hs
      · injection hs with hs; subst hs
        constructor
        · simp [initAState, keysOf]
        · intro k hk; simp [initAState, keysOf] at hk
      · cases hs

theorem containsSub_nil_needle (hay : Str) : containsSub hay [] = true := by
  cases hay <;> simp [containsSub, startsWithS]

theorem topicMatches_iff (q : Str) (t : TopicEntry) :
    topicMatches q t = true ↔
      IsSubstring (toLowerStr q) (toLowerStr t.topic) ∨
        ∃ st ∈ t.subtopics, IsSubstring (toLowerStr q) (toLowerStr st) := by
  simp only [topicMatches, Bool.or_eq_true, containsSub_iff,
    List.any_eq_true]

theorem linesAfterMarker_eq_none_iff (marker : Str) (ls : List Str) :
    linesAfterMarker marker ls = none ↔
      ∀ l ∈ ls, containsSub (toLowerStr l) marker = false := by
  induction ls with
  | nil => simp [linesAfterMarker]
  | cons l t ih =>
    rw [linesAfterMarker]
    by_cases hc : containsSub (toLowerStr l) marker = true
    · rw [if_pos hc]
      constructor
      · intro h; cases h
      · intro hall
        have hl := hall l (List.mem_cons_self l t)
        rw [hc] at hl; cases hl
    · have hf : containsSub (toLowerStr l) marker = false := by
        cases h : containsSub (toLowerStr l) marker
        · rfl
        · exact absurd h hc
      rw [if_neg hc, ih]
      constructor
      · intro hall l2 hl2
        rcases List.mem_cons.mp hl2 with rfl | hm
        · exact hf
        · exact hall l2 hm
      · intro hall l2 hl2
        exact hall l2 (List.mem_cons_of_mem _ hl2)

theorem expand_eq_nil_of_no_match (topic : Str)
    (h : ∀ e ∈ expansionTable,
      containsSub (normalizeTopic topic) e.1 = false) :
    expand topic = [] := by
  rw [expand]
  have hfil :
      expansionTable.filter
        (fun e => containsSub (normalizeTopic topic) e.1) = [] := by
    rw [List.filter_eq_nil_iff]
    intro e he
    rw [h e he]
    exact Bool.false_ne_true
  rw [hfil]
  rfl

theorem assemble_objectives_eq (subject : Subject) (topic : Str)
    (grade : Nat) (chunks : List CurriculumChunk) :
    (assemble subject topic grade chunks).objectives =
      (if (dedupFirstSeen
            (chunks.flatMap (fun c => extract_objectives c.body))).isEmpty
       then genericObjectives topic subject
       else dedupFirstSeen
         (chunks.flatMap (fun c => extract_objectives c.body))) := rfl

theorem assemble_content_eq (subject : Subject) (topic : Str)
    (grade : Nat) (chunks : List CurriculumChunk) :
    (assemble subject topic grade chunks).content =
      (if (chunks.take maxContentChunks).isEmpty
       then fallbackContent topic subject
       else contentHeader topic ++
         List.intercalate chunkSeparator
           ((chunks.take maxContentChunks).map renderChunk)) := rfl

theorem assemble_title_eq (subject : Subject) (topic : Str) (grade : Nat)
    (chunks : List CurriculumChunk) :
    (assemble subject topic grade chunks).title =
      titleCase topic ++ " - Sierra Leone Curriculum".data := rfl

theorem assemble_estimated_time_eq (subject : Subject) (topic : Str)
    (grade : Nat) (chunks : List CurriculumChunk) :
    (assemble subject topic grade chunks).estimated_time =
      estimatedTimeFor subject := rfl

theorem genericObjectives_ne_nil (topic : Str) (subject : Subject) :
    genericObjectives topic subject ≠ [] := by
  simp [genericObjectives]

theorem assemble_objectives_ne_nil (subject : Subject) (topic : Str)
    (grade : Nat) (chunks : List CurriculumChunk) :
    (assemble subject topic grade chunks).objectives ≠ [] := by
  rw [assemble_objectives_eq]
  split
  · exact genericObjectives_ne_nil topic subject
  · rename_i hne
    intro hnil
    rw [hnil] at hne
    exact hne rfl

theorem fallbackContent_ne_nil (topic : Str) (subject : Subject) :
    fallbackContent topic subject ≠ [] := by
  have h2 : "# ".data = ['#', ' '] := rfl
  rw [fallbackContent, h2]
  simp

theorem assemble_content_ne_nil (subject : Subject) (topic : Str)
    (grade : Nat) (chunks : List CurriculumChunk) :
    (assemble subject topic grade chunks).content ≠ [] := by
  rw [assemble_content_eq]
  split
  · exact fallbackContent_ne_nil topic subject
  · have h2 : "# ".data = ['#', ' '] := rfl
    rw [contentHeader, h2]
    simp

theorem estimatedTimeFor_pos (subject : Subject) :
    0 < estimatedTimeFor subject := by
  cases subject <;> decide

theorem mem_retrieve (score : Str → CurriculumChunk → Nat)
    (store : List CurriculumChunk) (subject : Subject) (grade : Nat)
    (topic : Str) (limit : Nat) (c : CurriculumChunk)
    (h : c ∈ retrieve score store subject grade topic limit) :
    c.subject = subject ∧ c.grade = grade ∧ c ∈ store := by
  simp only [retrieve] at h
  have h1 := List.mem_of_mem_take h
  split at h1
  · have h2 := (dedupByKey_sublist _ _).mem h1
    rcases List.mem_append.mp h2 with h3 | h3
    · exact mem_similarity_search _ _ _ _ _ _ _ h3
    · exact mem_similarity_search _ _ _ _ _ _ _ h3
  · exact mem_similarity_search _ _ _ _ _ _ _ h1

/-- A curriculum body used by concrete witnesses. -/

theorem C3_score_independent_of_answers (rand : Nat) (a1 a2 : AnswersMap)
    (tr : Nat) :
    handleSubmitResults rand a1 tr = handleSubmitResults rand a2 tr ∧
    60 ≤ (handleSubmitResults rand a1 tr).score ∧
    (handleSubmitResults rand a1 tr).score ≤ 99 ∧
    (handleSubmitResults rand a1 tr).correctAnswers =
      (handleSubmitResults rand a1 tr).score * questions.length / 100 := by
  refine ⟨rfl, ?_, ?_, rfl⟩
  · show 60 ≤ rand % 40 + 60
    omega
  · show rand % 40 + 60 ≤ 99
    omega

/-- C10: the displayed topic list keeps exactly the topics whose name or
one of whose subtopics contains the query case-insensitively; the empty
query keeps every topic; filtering never reorders retained topics. -/

theorem C10_filteredTopics_characterisation (topics : List TopicEntry)
    (q : Str) :
    (∀ t, t ∈ filteredTopics topics q ↔
        t ∈ topics ∧
          (IsSubstring (toLowerStr q) (toLowerStr t.topic) ∨
            ∃ st ∈ t.subtopics,
              IsSubstring (toLowerStr q) (toLowerStr st))) ∧
    filteredTopics topics [] = topics ∧
    (filteredTopics topics q).Sublist topics := by
  refine ⟨?_, ?_, List.filter_sublist topics⟩
  · intro t
    rw [filteredTopics, List.mem_filter, topicMatches_iff]
  · rw [filteredTopics]
    apply List.filter_eq_self.mpr
    intro t _
    simp [topicMatches, toLowerStr, containsSub_nil_needle]

/-- C5: the Keyword Expander is a pure total function on strings: when no
table key is a substring of the normalised (lowercased, trimmed) topic it
returns the empty set, and on "matter" it always returns the fixed set of
six chemistry terms. -/

theorem C5_expand_pure_total (topic : Str)
    (h : ∀ e ∈ expansionTable,
      containsSub (normalizeTopic topic) e.1 = false) :
    expand topic = [] ∧
    expand "matter".data =
      ["chemistry".data, "chemical".data, "atomic".data, "molecule".data,
       "reaction".data, "element".data] :=
  ⟨expand_eq_nil_of_no_match topic h, by decide⟩

/-- Witness for C5 at the concrete topic "numbers", which matches no table
key. -/

theorem C5_expand_witness :
    (∀ e ∈ expansionTable,
      containsSub (normalizeTopic "numbers".data) e.1 = false) ∧
    (expand "numbers".data = [] ∧
      expand "matter".data =
        ["chemistry".data, "chemical".data, "atomic".data,
         "molecule".data, "reaction".data, "element".data]) :=
  ⟨by decide, C5_expand_pure_total "numbers".data (by decide)⟩

/-- C8: extract_objectives is deterministic, so two runs on the same body
yield identical lists, and it returns the empty list whenever the marker
phrase "Students will learn to:" is absent from every line of the body. -/

theorem C8_extract_objectives_idempotent (body : Str) :
    extract_objectives body = extract_objectives body ∧
    ((∀ l ∈ splitLines body,
        containsSub (toLowerStr l) objectivesMarker = false) →
      extract_objectives body = []) := by
  refine ⟨rfl, fun habsent => ?_⟩
  rw [extract_objectives, (linesAfterMarker_eq_none_iff _ _).mpr habsent]

/-- C1: for every syntactically valid lesson request (subject in the fixed
enum, grade between 7 and 12, any topic string) the pipeline returns a
complete LessonPayload with non-empty content, non-empty objectives and
positive estimated time, including when retrieval yields zero chunks or
the Curriculum Store is unreachable; it never returns a partial or null
payload. -/

theorem C1_payload_always_complete (score : Str → CurriculumChunk → Nat)
    (subject : Subject) (grade : Nat) (topic : Str)
    (storeOrDown : Option (List CurriculumChunk)) (h7 : 7 ≤ grade)
    (h12 : grade ≤ 12) :
    (generateLesson score subject grade topic storeOrDown).content ≠ [] ∧
    (generateLesson score subject grade topic storeOrDown).objectives ≠
      [] ∧
    0 < (generateLesson score subject grade topic
        storeOrDown).estimated_time := by
  cases storeOrDown with
  | none =>
    exact ⟨assemble_content_ne_nil subject topic grade [],
      assemble_objectives_ne_nil subject topic grade [],
      estimatedTimeFor_pos subject⟩
  | some store =>
    exact ⟨assemble_content_ne_nil subject topic grade _,
      assemble_objectives_ne_nil subject topic grade _,
      estimatedTimeFor_pos subject⟩

/-- Witness for C1: a grade-10 science request against an unreachable
store still yields a complete payload. -/

theorem C1_payload_witness :
    (7 ≤ 10 ∧ 10 ≤ 12) ∧
    ((generateLesson (fun _ _ => 0) Subject.science 10 "matter".data
        none).content ≠ [] ∧
      (generateLesson (fun _ _ => 0) Subject.science 10 "matter".data
          none).objectives ≠ [] ∧
      0 < (generateLesson (fun _ _ => 0) Subject.science 10 "matter".data
          none).estimated_time) :=
  ⟨by decide,
    C1_payload_always_complete (fun _ _ => 0) Subject.science 10
      "matter".data none (by decide) (by decide)⟩

/-- C2: every chunk in the list returned by retrieve has stored subject
and grade exactly equal to the requested ones; no cross-grade or
cross-subject chunk ever appears. -/

theorem C2_no_cross_subject_grade_leakage
    (score : Str → CurriculumChunk → Nat) (store : List CurriculumChunk)
    (subject : Subject) (grade : Nat) (topic : Str) (limit : Nat)
    (c : CurriculumChunk)
    (h : c ∈ retrieve score store subject grade topic limit) :
    c.subject = subject ∧ c.grade = grade :=
  ⟨(mem_retrieve score store subject grade topic limit c h).1,
    (mem_retrieve score store subject grade topic limit c h).2.1⟩

/-- Witness for C2 at a concrete one-chunk store. -/

theorem C2_leakage_witness :
    demoChunk ∈
        retrieve (fun _ _ => 0) [demoChunk] Subject.science 10
          "matter".data 8 ∧
      demoChunk.subject = Subject.science ∧ demoChunk.grade = 10 :=
  ⟨by decide,
    C2_no_cross_subject_grade_leakage (fun _ _ => 0) [demoChunk]
      Subject.science 10 "matter".data 8 demoChunk (by decide)⟩

/-- C6: the assembled objectives are the first-seen-order de-duplicated
union of extract_objectives over all chunks, so a bullet shared by two
chunks appears exactly once; when the union is empty the field is exactly
the three synthesized generic objectives, so objectives is never empty. -/

theorem C6_objectives_union_dedup (subject : Subject) (topic : Str)
    (grade : Nat) (chunks : List CurriculumChunk) :
    (chunks.flatMap (fun c => extract_objectives c.body) ≠ [] →
      (assemble subject topic grade chunks).objectives =
          dedupFirstSeen
            (chunks.flatMap (fun c => extract_objectives c.body)) ∧
        (assemble subject topic grade chunks).objectives.Nodup ∧
        (∀ s, s ∈ (assemble subject topic grade chunks).objectives ↔
          s ∈ chunks.flatMap (fun c => extract_objectives c.body)) ∧
        ((assemble subject topic grade chunks).objectives).Sublist
          (chunks.flatMap (fun c => extract_objectives c.body))) ∧
    (chunks.flatMap (fun c => extract_objectives c.body) = [] →
      (assemble subject topic grade chunks).objectives =
          genericObjectives topic subject ∧
        (assemble subject topic grade chunks).objectives.length = 3) ∧
    (assemble subject topic grade chunks).objectives ≠ [] := by
  refine ⟨fun hne => ?_, fun hnil => ?_,
    assemble_objectives_ne_nil subject topic grade chunks⟩
  · have hie :
        ¬((dedupFirstSeen
            (chunks.flatMap (fun c => extract_objectives c.body))).isEmpty =
          true) := by
      rw [List.isEmpty_iff, dedupFirstSeen_eq_nil_iff]
      exact hne
    rw [assemble_objectives_eq, if_neg hie]
    exact ⟨rfl, dedupFirstSeen_nodup _,
      fun s => mem_dedupFirstSeen _ s, dedupFirstSeen_sublist _⟩
  · have hie :
        (dedupFirstSeen
          (chunks.flatMap (fun c => extract_objectives c.body))).isEmpty =
          true := by
      rw [List.isEmpty_iff, dedupFirstSeen_eq_nil_iff]
      exact hnil
    rw [assemble_objectives_eq, if_pos hie]
    exact ⟨rfl, rfl⟩

theorem take_ne_nil_of_pos {α : Type} (l : List α) (n : Nat) (hn : 0 < n)
    (h : l ≠ []) : l.take n ≠ [] := by
  cases l with
  | nil => exact absurd rfl h
  | cons a t =>
    cases n with
    | zero => omega
    | succ m => simp

/-- C7: the assembled title is the title-cased topic followed by
" - Sierra Leone Curriculum", and the content concatenates at most 6
chunks, each rendered as its title header then its body, with the literal
separator between consecutive chunks. -/

theorem C7_title_and_content_format (subject : Subject) (topic : Str)
    (grade : Nat) (chunks : List CurriculumChunk) (hne : chunks ≠ []) :
    (assemble subject topic grade chunks).title =
      titleCase topic ++ " - Sierra Leone Curriculum".data ∧
    (assemble subject topic grade chunks).content =
      contentHeader topic ++
        List.intercalate chunkSeparator
          ((chunks.take maxContentChunks).map renderChunk) ∧
    (chunks.take maxContentChunks).length ≤ 6 ∧
    (chunks.take maxContentChunks).Sublist chunks ∧
    chunkSeparator = "\n\n---\n\n".data ∧
    maxContentChunks = 6 := by
  refine ⟨rfl, ?_, ?_, List.take_sublist _ _, rfl, rfl⟩
  · have hnot : ¬((chunks.take maxContentChunks).isEmpty = true) := by
      rw [List.isEmpty_iff]
      exact take_ne_nil_of_pos chunks maxContentChunks (by decide) hne
    rw [assemble_content_eq, if_neg hnot]
  · exact List.length_take_le _ _

/-- Witness for C7 at a concrete one-chunk assemble call. -/

theorem C7_format_witness :
    ([demoChunk] ≠ ([] : List CurriculumChunk)) ∧
    ((assemble Subject.science "matter".data 10 [demoChunk]).title =
        titleCase "matter".data ++ " - Sierra Leone Curriculum".data ∧
      (assemble Subject.science "matter".data 10 [demoChunk]).content =
        contentHeader "matter".data ++
          List.intercalate chunkSeparator
            (([demoChunk].take maxContentChunks).map renderChunk) ∧
      ([demoChunk].take maxContentChunks).length ≤ 6 ∧
      ([demoChunk].take maxContentChunks).Sublist [demoChunk] ∧
      chunkSeparator = "\n\n---\n\n".data ∧
      maxContentChunks = 6) :=
  ⟨by decide,
    C7_title_and_content_format Subject.science "matter".data 10
      [demoChunk] (by decide)⟩

theorem similarity_search_ids_nodup (score : Str → CurriculumChunk → Nat)
    (store : List CurriculumChunk) (query : Str) (subject : Subject)
    (grade : Nat) (limit : Nat)
    (hstore : (store.map (fun c => c.id)).Nodup) :
    ((similarity_search score store query subject grade limit).map
        (fun c => c.id)).Nodup := by
  have hfil := List.Sublist.nodup
    ((List.filter_sublist
      (p := fun c => decide (c.subject = subject ∧ c.grade = grade))
      store).map (fun c => c.id)) hstore
  have hperm := List.perm_insertionSort
    (fun a b => score query b ≤ score query a)
    (store.filter (fun c => decide (c.subject = subject ∧ c.grade = grade)))
  have hsorted := List.Perm.nodup (hperm.map (fun c => c.id)).symm hfil
  exact List.Sublist.nodup
    ((List.take_sublist limit _).map (fun c : CurriculumChunk => c.id))
    hsorted

/-- C4: retrieval first searches on the raw topic restricted to subject
and grade; only when that pass yields fewer than 3 results is a second
search on the keyword-expanded query run; the merge is de-duplicated by
chunk identity preserving descending rank order, and the result is
truncated to the limit, whose default is 8 (previously 5). -/

theorem C4_retrieve_two_pass (score : Str → CurriculumChunk → Nat)
    (store : List CurriculumChunk) (subject : Subject) (grade : Nat)
    (topic : Str) (limit : Nat)
    (hstore : (store.map (fun c => c.id)).Nodup) :
    (expansionThreshold ≤
        (similarity_search score store topic subject grade limit).length →
      retrieve score store subject grade topic limit =
        (similarity_search score store topic subject grade limit).take
          limit) ∧
    ((similarity_search score store topic subject grade limit).length <
        expansionThreshold →
      retrieve score store subject grade topic limit =
        (dedupByKey (fun c => c.id)
          (similarity_search score store topic subject grade limit ++
            similarity_search score store (augmentedQuery topic) subject
              grade limit)).take limit) ∧
    (dedupByKey (fun c => c.id)
        (similarity_search score store topic subject grade limit ++
          similarity_search score store (augmentedQuery topic) subject
            grade limit)).Sublist
      (similarity_search score store topic subject grade limit ++
        similarity_search score store (augmentedQuery topic) subject grade
          limit) ∧
    ((retrieve score store subject grade topic limit).map
        (fun c => c.id)).Nodup ∧
    (retrieve score store subject grade topic limit).length ≤ limit ∧
    retrieve score store subject grade topic =
      retrieve score store subject grade topic defaultRetrieveLimit ∧
    expansionThreshold = 3 ∧ defaultRetrieveLimit = 8 := by
  refine ⟨fun hge => ?_, fun hlt => ?_, dedupByKey_sublist _ _, ?_, ?_,
    rfl, rfl, rfl⟩
  · simp only [retrieve]
    rw [if_neg (Nat.not_lt.mpr hge)]
  · simp only [retrieve]
    rw [if_pos hlt]
  · simp only [retrieve]
    split
    · exact List.Sublist.nodup
        ((List.take_sublist limit _).map (fun c : CurriculumChunk => c.id))
        (dedupByKey_map_key_nodup (fun c : CurriculumChunk => c.id) _)
    · exact List.Sublist.nodup
        ((List.take_sublist limit _).map (fun c : CurriculumChunk => c.id))
        (similarity_search_ids_nodup score store topic subject grade limit
          hstore)
  · simp only [retrieve]
    split <;> exact List.length_take_le _ _

/-- Witness for C4 at a concrete one-chunk store. -/

theorem C4_two_pass_witness :
    (([demoChunk].map (fun c => c.id)).Nodup) ∧
    (((retrieve (fun _ _ => 0) [demoChunk] Subject.science 10
          "matter".data 8).map (fun c => c.id)).Nodup ∧
      (retrieve (fun _ _ => 0) [demoChunk] Subject.science 10
          "matter".data 8).length ≤ 8) :=
  ⟨by decide,
    (C4_retrieve_two_pass (fun _ _ => 0) [demoChunk] Subject.science 10
        "matter".data 8 (by decide)).2.2.2.1,
    (C4_retrieve_two_pass (fun _ _ => 0) [demoChunk] Subject.science 10
        "matter".data 8 (by decide)).2.2.2.2.1⟩

/-- C9: in every reachable Assessment state in which the Submit control
can fire, the answers map contains an entry for every question, and no
submission is in flight. -/

theorem C9_submit_requires_all_answers (s : AState) (h : ReachableA s)
    (he : submitEnabled s = true) :
    (∀ q ∈ questions, hasKey s.answers q.id = true) ∧
      s.loading = false := by
  rcases reachableA_answersInv s h with ⟨hnd, hsubset⟩
  have hparts : s.loading = false ∧
      questions.length ≤ s.answers.length := by
    simp only [submitEnabled, Bool.and_eq_true, Bool.not_eq_true',
      beq_iff_eq, decide_eq_true_eq] at he
    tauto
  refine ⟨?_, hparts.1⟩
  intro q hq
  rw [hasKey_iff]
  have hlenk : (keysOf s.answers).length = s.answers.length := by
    simp [keysOf]
  have hcard : (keysOf s.answers).toFinset.card =
      (keysOf s.answers).length := List.toFinset_card_of_nodup hnd
  have hsubF : (keysOf s.answers).toFinset ⊆ questionIds.toFinset := by
    intro a ha
    exact List.mem_toFinset.mpr (hsubset a (List.mem_toFinset.mp ha))
  have hqcard : questionIds.toFinset.card ≤
      (keysOf s.answers).toFinset.card := by
    have h3 : questionIds.toFinset.card = 3 := by decide
    have hge := hparts.2
    have hql : questions.length = 3 := rfl
    rw [hql] at hge
    rw [h3, hcard, hlenk]
    omega
  have heq := Finset.eq_of_subset_of_card_le hsubF hqcard
  have hqid : q.id ∈ questionIds := List.mem_map.mpr ⟨q, hq, rfl⟩
  have hmem : q.id ∈ (keysOf s.answers).toFinset := by
    rw [heq]
    exact List.mem_toFinset.mpr hqid
  exact List.mem_toFinset.mp hmem

/-- Witness for C9: the fully answered final-question state is reached by
answering each question in turn, and there the theorem applies. -/

theorem C9_submit_witness :
    (∀ q ∈ questions, hasKey witState.answers q.id = true) ∧
      witState.loading = false := by
  have h1 : ReachableA
      { currentQuestion := 0, answers := [(1, "42".data)],
        loading := false, isSubmitted := false, timeRemaining := 600 } :=
    ReachableA.step (AEvent.answerChange "42".data) ReachableA.init
      (by decide)
  have h2 : ReachableA
      { currentQuestion := 1, answers := [(1, "42".data)],
        loading := false, isSubmitted := false, timeRemaining := 600 } :=
    ReachableA.step AEvent.next h1 (by decide)
  have h3 : ReachableA
      { currentQuestion := 1, answers := [(1, "42".data), (2, "4".data)],
        loading := false, isSubmitted := false, timeRemaining := 600 } :=
    ReachableA.step (AEvent.answerChange "4".data) h2 (by decide)
  have h4 : ReachableA
      { currentQuestion := 2, answers := [(1, "42".data), (2, "4".data)],
        loading := false, isSubmitted := false, timeRemaining := 600 } :=
    ReachableA.step AEvent.next h3 (by decide)
  have h5 : ReachableA witState :=
    ReachableA.step (AEvent.answerChange "6".data) h4 (by decide)
  exact C9_submit_requires_all_answers witState h5 (by decide)
